import Mathlib

/-!
# Verification of the real-time session/playback engine of `kid-music-maker`

Shallow embedding of the engine implemented in `src/index.tsx`
(the `PromptDj` Lit component): playback state machine, audio chunk
scheduling, prompt filtering, throttled control channels, and the
connection lifecycle.  Times and audio durations are modelled as
rationals (the source uses JS numbers holding seconds on the audio
clock, respectively milliseconds from `Date.now()`).
-/

namespace KidMusic

/-- `type PlaybackState = 'stopped' | 'playing' | 'loading' | 'paused'`
(src/index.tsx:31). -/
inductive PlaybackState where
  | stopped
  | playing
  | loading
  | paused
deriving DecidableEq, Repr

/-- `interface Prompt {promptId; color; text; weight}` (src/index.tsx:24-29). -/
structure Prompt where
  promptId : String
  color : String
  text : String
  weight : ℚ
deriving DecidableEq, Repr

/-- The mutable fields of the `PromptDj` component that the engine claims
are about (src/index.tsx:1370-1381).  The `Map<string, Prompt>` is kept as
a list of prompts in insertion order; `filteredPrompts : Set<string>` as a
list of texts; `session` presence as a Bool. -/
structure EngineState where
  playbackState : PlaybackState
  nextStartTime : ℚ
  connectionError : Bool
  hasSession : Bool
  filteredPrompts : List String
  prompts : List Prompt
  nextPromptId : ℕ
deriving DecidableEq, Repr

/-- `private readonly bufferTime = 2;` (src/index.tsx:1377), seconds. -/
def bufferTime : ℚ := 2

/-- `pauseAudio()` effect on the modelled fields (src/index.tsx:1662-1674):
`playbackState = 'paused'` and `nextStartTime = 0`.  The gain ramp and the
`session.pause()` call are external side effects. -/
def pauseAudio (st : EngineState) : EngineState :=
  { st with playbackState := PlaybackState.paused, nextStartTime := 0 }

/-- `stopAudio()` effect on the modelled fields (src/index.tsx:1711-1725). -/
def stopAudio (st : EngineState) : EngineState :=
  { st with playbackState := PlaybackState.stopped, nextStartTime := 0 }

/-- Outcome of handling one inbound audio chunk: the new engine state,
the device-clock time the decoded buffer was scheduled to start at
(`none` when the chunk was dropped), and whether the one-shot
promote-to-playing timer was armed by this chunk. -/
structure ChunkResult where
  state : EngineState
  scheduledStart : Option ℚ
  timerArmed : Bool
deriving DecidableEq, Repr

/-- The audio branch of the `onmessage` callback (src/index.tsx:1481-1519).
`ctxClosed` models `!this.audioContext || this.audioContext.state === 'closed'`;
`now` is `this.audioContext.currentTime`; `dur` is the decoded
`audioBuffer.duration`.
* If `playbackState` is `paused` or `stopped`, return without decoding.
* If the audio context is closed, `pauseAudio()` and return.
* If `nextStartTime === 0`, set `nextStartTime = now + bufferTime` and arm
  the `setTimeout` that promotes `loading` to `playing`.
* If `nextStartTime < now` (under-run), force `loading` and re-arm
  `nextStartTime = now + bufferTime`.
* `source.start(nextStartTime); nextStartTime += duration`. -/
def handleAudioChunk (st : EngineState) (ctxClosed : Bool) (now dur : ℚ) :
    ChunkResult :=
  if st.playbackState = PlaybackState.paused ∨
      st.playbackState = PlaybackState.stopped then
    ⟨st, none, false⟩
  else if ctxClosed then
    ⟨pauseAudio st, none, false⟩
  else
    let st1 := if st.nextStartTime = 0 then
        { st with nextStartTime := now + bufferTime }
      else st
    let armed := decide (st.nextStartTime = 0)
    let st2 := if st1.nextStartTime < now then
        { st1 with playbackState := PlaybackState.loading,
                   nextStartTime := now + bufferTime }
      else st1
    ⟨{ st2 with nextStartTime := st2.nextStartTime + dur },
      some st2.nextStartTime, armed⟩

/-- The body of the `setTimeout` armed for the first buffer
(src/index.tsx:1506-1508): `if (this.playbackState === 'loading')
this.playbackState = 'playing';`. -/
def promoteTimerFire (st : EngineState) : EngineState :=
  if st.playbackState = PlaybackState.loading then
    { st with playbackState := PlaybackState.playing }
  else st

/-- A concrete engine state used to instantiate theorems: `loading`,
horizon at 1 second, healthy connection, no prompts. -/
def exLoading : EngineState :=
  { playbackState := PlaybackState.loading
    nextStartTime := 1
    connectionError := false
    hasSession := true
    filteredPrompts := []
    prompts := []
    nextPromptId := 0 }

/-- A concrete engine state in `paused` with a cleared horizon. -/
def exPaused : EngineState :=
  { exLoading with playbackState := PlaybackState.paused, nextStartTime := 0 }

/-- C1: an audio chunk accepted (state `loading` or `playing`) with a
nonzero horizon `nextStartTime` strictly below the current device time is
an under-run: the engine forces `loading`, re-arms the horizon to
`now + bufferTime`, and schedules the buffer at that fresh horizon (the
new `nextStartTime` afterwards being `now + bufferTime + dur`), not at the
stale value. -/
theorem c1_underrun_reschedules (st : EngineState) (now dur : ℚ)
    (hstate : st.playbackState = PlaybackState.loading ∨
      st.playbackState = PlaybackState.playing)
    (hnz : st.nextStartTime ≠ 0) (hlt : st.nextStartTime < now) :
    handleAudioChunk st false now dur =
      ⟨{ st with playbackState := PlaybackState.loading,
                 nextStartTime := now + bufferTime + dur },
        some (now + bufferTime), false⟩ := by
  rcases hstate with h | h <;>
    simp [handleAudioChunk, h, hnz, hlt]

/-- C1 witness: the under-run theorem instantiated at a concrete state
(`loading`, horizon 1) and a chunk arriving at device time 3. -/
theorem c1_underrun_reschedules_witness :
    handleAudioChunk exLoading false 3 (1/2) =
      ⟨{ exLoading with playbackState := PlaybackState.loading,
                        nextStartTime := 3 + bufferTime + 1/2 },
        some (3 + bufferTime), false⟩ :=
  c1_underrun_reschedules exLoading 3 (1/2) (Or.inl rfl) (by decide) (by decide)

/-- C3: the first chunk accepted after the timeline was reset
(`nextStartTime = 0`) is scheduled to start at `now + bufferTime`, and the
one-shot promote timer is armed; when that timer fires, the state becomes
`playing` exactly when it is still `loading` (or already `playing`), and a
state that is not `loading` (e.g. paused or stopped during the look-ahead
window) is left untouched. -/
theorem c3_first_buffer_lookahead (st : EngineState) (now dur : ℚ)
    (hstate : st.playbackState = PlaybackState.loading ∨
      st.playbackState = PlaybackState.playing)
    (hz : st.nextStartTime = 0) :
    (handleAudioChunk st false now dur).scheduledStart =
        some (now + bufferTime) ∧
    (handleAudioChunk st false now dur).timerArmed = true ∧
    (∀ s : EngineState,
      ((promoteTimerFire s).playbackState = PlaybackState.playing ↔
        (s.playbackState = PlaybackState.loading ∨
          s.playbackState = PlaybackState.playing)) ∧
      (s.playbackState ≠ PlaybackState.loading → promoteTimerFire s = s)) := by
  have hno : ¬ (now + bufferTime < now) := by
    rw [bufferTime]
    linarith
  refine ⟨?_, ?_, ?_⟩
  · rcases hstate with h | h <;> simp [handleAudioChunk, h, hz, hno]
  · rcases hstate with h | h <;> simp [handleAudioChunk, h, hz, hno]
  · intro s
    constructor
    · rcases hs : s.playbackState <;> simp [promoteTimerFire, hs]
    · intro hns
      simp [promoteTimerFire, hns]

/-- C3 witness: the first-buffer theorem instantiated at a concrete
`loading` state with a cleared horizon and a chunk at device time 4. -/
theorem c3_first_buffer_lookahead_witness :
    (handleAudioChunk { exLoading with nextStartTime := 0 } false 4 2).scheduledStart =
        some (4 + bufferTime) ∧
    (handleAudioChunk { exLoading with nextStartTime := 0 } false 4 2).timerArmed = true ∧
    (∀ s : EngineState,
      ((promoteTimerFire s).playbackState = PlaybackState.playing ↔
        (s.playbackState = PlaybackState.loading ∨
          s.playbackState = PlaybackState.playing)) ∧
      (s.playbackState ≠ PlaybackState.loading → promoteTimerFire s = s)) :=
  c3_first_buffer_lookahead { exLoading with nextStartTime := 0 } 4 2
    (Or.inl rfl) (by decide)

/-- C4: a chunk arriving while `paused` or `stopped` is dropped entirely —
the handler returns the state unchanged, schedules nothing and arms no
timer; and conversely a chunk is scheduled only when the state was
`loading` or `playing`. -/
theorem c4_drop_when_paused_or_stopped (st : EngineState) (ctxClosed : Bool)
    (now dur : ℚ) :
    ((st.playbackState = PlaybackState.paused ∨
        st.playbackState = PlaybackState.stopped) →
      handleAudioChunk st ctxClosed now dur = ⟨st, none, false⟩) ∧
    ((handleAudioChunk st ctxClosed now dur).scheduledStart ≠ none →
      st.playbackState = PlaybackState.loading ∨
        st.playbackState = PlaybackState.playing) := by
  constructor
  · intro h
    rcases h with h | h <;> simp [handleAudioChunk, h]
  · intro h
    rcases hpb : st.playbackState with _ | _ | _ | _
    · simp [handleAudioChunk, hpb] at h
    · exact Or.inr rfl
    · exact Or.inl rfl
    · simp [handleAudioChunk, hpb] at h

/-- C4 witness: a chunk handled in the concrete `paused` state is dropped
with no change to the state. -/
theorem c4_drop_when_paused_or_stopped_witness :
    handleAudioChunk exPaused false 5 1 = ⟨exPaused, none, false⟩ :=
  (c4_drop_when_paused_or_stopped exPaused false 5 1).1 (Or.inl rfl)

/-- Run the audio branch of `onmessage` over a whole sequence of chunks,
each given as `(now, dur)` — its arrival time on the device clock and its
decoded duration — with the audio context open throughout.  Returns the
final state together with the list of scheduled start times (dropped
chunks contribute nothing). -/
def runChunks : EngineState → List (ℚ × ℚ) → EngineState × List ℚ
  | st, [] => (st, [])
  | st, c :: rest =>
    let r := handleAudioChunk st false c.1 c.2
    let pr := runChunks r.state rest
    (pr.1, r.scheduledStart.toList ++ pr.2)

/-- `noUnderrunB h chunks` says that, starting from horizon `h`, every
chunk of the sequence arrives no later than the horizon left by its
predecessors — i.e. the under-run branch of src/index.tsx:1511-1516 never
fires. -/
def noUnderrunB : ℚ → List (ℚ × ℚ) → Bool
  | _, [] => true
  | h, c :: rest => decide (c.1 ≤ h) && noUnderrunB (h + c.2) rest

/-- The expected start times of a chunk sequence scheduled back-to-back
from horizon `h`: each chunk starts where the previous one ended. -/
def startsFrom : ℚ → List (ℚ × ℚ) → List ℚ
  | _, [] => []
  | h, c :: rest => h :: startsFrom (h + c.2) rest

/-- One accepted chunk in `playing` with no under-run: scheduled exactly
at the current horizon, which then advances by the buffer duration. -/
theorem handleAudioChunk_playing_step (st : EngineState) (now dur : ℚ)
    (hplay : st.playbackState = PlaybackState.playing)
    (hpos : 0 < st.nextStartTime) (hle : now ≤ st.nextStartTime) :
    handleAudioChunk st false now dur =
      ⟨{ st with nextStartTime := st.nextStartTime + dur },
        some st.nextStartTime, false⟩ := by
  simp [handleAudioChunk, hplay, hpos.ne', not_lt.mpr hle]

/-- While `playing` with a positive horizon and nonnegative durations, a
run with no under-run produces exactly the back-to-back start times
`startsFrom st.nextStartTime chunks`. -/
theorem runChunks_playing_starts (chunks : List (ℚ × ℚ)) :
    ∀ st : EngineState, st.playbackState = PlaybackState.playing →
      0 < st.nextStartTime → (∀ c ∈ chunks, 0 ≤ c.2) →
      noUnderrunB st.nextStartTime chunks = true →
      (runChunks st chunks).2 = startsFrom st.nextStartTime chunks := by
  induction chunks with
  | nil => intro st _ _ _ _; simp [runChunks, startsFrom]
  | cons c rest ih =>
    intro st hplay hpos hdur hnou
    rw [noUnderrunB, Bool.and_eq_true, decide_eq_true_eq] at hnou
    have hstep := handleAudioChunk_playing_step st c.1 c.2 hplay hpos hnou.1
    have hdur0 : 0 ≤ c.2 := hdur c (List.mem_cons_self c rest)
    have hrec := ih { st with nextStartTime := st.nextStartTime + c.2 }
      hplay (by show 0 < st.nextStartTime + c.2; linarith)
      (fun d hd => hdur d (List.mem_cons_of_mem c hd)) hnou.2
    simp only [runChunks, hstep, startsFrom]
    simp only at hrec
    rw [hrec]
    simp [Option.toList]

/-- Element `i` of `startsFrom h chunks`, out-of-range defaulting to 0. -/
theorem startsFrom_getD (chunks : List (ℚ × ℚ)) :
    ∀ (h : ℚ) (i : ℕ), i + 1 < (startsFrom h chunks).length →
      (startsFrom h chunks).getD (i + 1) 0 =
        (startsFrom h chunks).getD i 0 + (chunks.getD i (0, 0)).2 := by
  induction chunks with
  | nil => intro h i hi; simp [startsFrom] at hi
  | cons c rest ih =>
    intro h i hi
    cases i with
    | zero =>
      cases rest with
      | nil => simp [startsFrom] at hi
      | cons d rest2 => simp [startsFrom]
    | succ j =>
      have hj : j + 1 < (startsFrom (h + c.2) rest).length := by
        simpa [startsFrom] using hi
      simpa [startsFrom] using ih (h + c.2) j hj

/-- C2: chunks accepted while `playing` with no under-run between them are
scheduled contiguously — each buffer starts exactly at the horizon left by
its predecessor, so `start(n+1) = start(n) + duration(n)` for every `n`,
strictly increasing whenever durations are positive and with no gaps or
overlaps. -/
theorem c2_contiguous_schedule (st : EngineState) (chunks : List (ℚ × ℚ))
    (hplay : st.playbackState = PlaybackState.playing)
    (hpos : 0 < st.nextStartTime) (hdur : ∀ c ∈ chunks, 0 ≤ c.2)
    (hnou : noUnderrunB st.nextStartTime chunks = true)
    (i : ℕ) (hi : i + 1 < ((runChunks st chunks).2).length) :
    ((runChunks st chunks).2).getD (i + 1) 0 =
      ((runChunks st chunks).2).getD i 0 + (chunks.getD i (0, 0)).2 := by
  have hs := runChunks_playing_starts chunks st hplay hpos hdur hnou
  rw [hs] at hi ⊢
  exact startsFrom_getD chunks st.nextStartTime i hi

/-- A concrete engine state in `playing` with horizon 2 seconds. -/
def exPlaying : EngineState :=
  { exLoading with playbackState := PlaybackState.playing, nextStartTime := 2 }

/-- C2 witness: a concrete two-chunk run in `playing` from horizon 2 —
the second buffer starts exactly where the first one ends. -/
theorem c2_contiguous_schedule_witness :
    ((runChunks exPlaying [(1, 1), (2, 1)]).2).getD 1 0 =
      ((runChunks exPlaying [(1, 1), (2, 1)]).2).getD 0 0 +
        (([(1, 1), (2, 1)] : List (ℚ × ℚ)).getD 0 (0, 0)).2 :=
  c2_contiguous_schedule exPlaying [(1, 1), (2, 1)] rfl
    (by simp [exPlaying, exLoading])
    (by simp)
    (by simp [noUnderrunB, exPlaying, exLoading])
    0
    (by simp [runChunks, handleAudioChunk, exPlaying, exLoading, bufferTime])

/-- `const childFriendlyInstruction = "Music for a 5-year-old: "`
(src/index.tsx:1560). -/
def childFriendlyInstruction : String := "Music for a 5-year-old: "

/-- The wrapping applied to each sent prompt text (src/index.tsx:1567):
the fixed instructional text before and the fixed closing sentence
after. -/
def wrapPromptText (t : String) : String :=
  childFriendlyInstruction ++ t ++ ". Make it simple, happy, and playful."

/-- The filter of `setSessionPrompts` (src/index.tsx:1562-1564):
`!this.filteredPrompts.has(p.text) && p.weight > 0.01`. -/
def sendPred (filtered : List String) (p : Prompt) : Bool :=
  !(filtered.contains p.text) && decide ((1 : ℚ) / 100 < p.weight)

/-- The weighted-prompt list built by `setSessionPrompts`
(src/index.tsx:1561-1568): filter, then wrap each surviving text. -/
def promptsToSend (prompts : List Prompt) (filtered : List String) :
    List Prompt :=
  (prompts.filter (sendPred filtered)).map
    (fun p => { p with text := wrapPromptText p.text })

/-- The operations that touch `filteredPrompts`: the `filteredPrompt`
branch of `onmessage` (src/index.tsx:1474-1480), which inserts the
rejected text, and `handleReset` (src/index.tsx:1845), which clears the
set.  Prompt edits never touch it. -/
inductive FilterEvent where
  | filteredSignal (text : String)
  | reset
deriving DecidableEq, Repr

/-- Apply one `filteredPrompts` operation.  `new Set([...old, text])` has
set semantics, modelled by inserting only when absent. -/
def applyFilterEvent (fs : List String) : FilterEvent → List String
  | FilterEvent.filteredSignal t => if fs.contains t then fs else t :: fs
  | FilterEvent.reset => []

/-- Apply a sequence of `filteredPrompts` operations in order. -/
def applyFilterEvents (fs : List String) (es : List FilterEvent) :
    List String :=
  es.foldl applyFilterEvent fs

/-- The prompt wrapping is injective: two prompt texts wrap to the same
sent text only if they are equal. -/
theorem wrapPromptText_inj {t1 t2 : String}
    (h : wrapPromptText t1 = wrapPromptText t2) : t1 = t2 := by
  have hd : (wrapPromptText t1).data = (wrapPromptText t2).data := by rw [h]
  simp only [wrapPromptText, String.data_append] at hd
  exact String.ext (List.append_cancel_left (List.append_cancel_right hd))

/-- A non-reset `filteredPrompts` operation keeps every present text. -/
theorem applyFilterEvent_keeps (fs : List String) (t : String)
    (e : FilterEvent) (hne : e ≠ FilterEvent.reset)
    (h : fs.contains t = true) : (applyFilterEvent fs e).contains t = true := by
  cases e with
  | filteredSignal s =>
    simp only [applyFilterEvent]
    by_cases hc : fs.contains s = true
    · rw [if_pos hc]; exact h
    · rw [if_neg hc]
      have hmem : t ∈ fs := by simpa using h
      simpa using List.mem_cons_of_mem s hmem
  | reset => exact absurd rfl hne

/-- A reset-free sequence of `filteredPrompts` operations keeps every
present text: the set grows monotonically until an explicit reset. -/
theorem applyFilterEvents_keeps (es : List FilterEvent) :
    ∀ (fs : List String) (t : String),
      (∀ e ∈ es, e ≠ FilterEvent.reset) → fs.contains t = true →
      (applyFilterEvents fs es).contains t = true := by
  induction es with
  | nil => intro fs t _ h; simpa [applyFilterEvents] using h
  | cons e rest ih =>
    intro fs t hne h
    have h1 := applyFilterEvent_keeps fs t e (hne e (List.mem_cons_self e rest)) h
    have h2 := ih (applyFilterEvent fs e) t
      (fun d hd => hne d (List.mem_cons_of_mem e hd)) h1
    simpa [applyFilterEvents] using h2

/-- C5: a weighted-prompt push contains exactly the prompts whose weight
exceeds 0.01 and whose text is not in the filtered set, each wrapped in
the fixed instructional template; a prompt whose text has been filtered is
excluded from the push no matter its weight; the filtered set survives
every reset-free sequence of operations; and the explicit reset clears
it. -/
theorem c5_prompt_filtering (ps : List Prompt) (fs : List String) :
    (∀ q ∈ promptsToSend ps fs, ∃ p, p ∈ ps ∧
        fs.contains p.text = false ∧ (1 : ℚ) / 100 < p.weight ∧
        q = { p with text := wrapPromptText p.text }) ∧
    (∀ p ∈ ps, (1 : ℚ) / 100 < p.weight → fs.contains p.text = false →
        { p with text := wrapPromptText p.text } ∈ promptsToSend ps fs) ∧
    (∀ t, fs.contains t = true → ∀ p ∈ ps, p.text = t →
        { p with text := wrapPromptText p.text } ∉ promptsToSend ps fs) ∧
    (∀ es : List FilterEvent, (∀ e ∈ es, e ≠ FilterEvent.reset) →
        ∀ t, fs.contains t = true →
          (applyFilterEvents fs es).contains t = true) ∧
    applyFilterEvents fs [FilterEvent.reset] = [] := by
  refine ⟨?_, ?_, ?_, ?_, ?_⟩
  · intro q hq
    rw [promptsToSend] at hq
    rcases List.mem_map.mp hq with ⟨p, hp, hq⟩
    rcases List.mem_filter.mp hp with ⟨hmem, hpred⟩
    rw [sendPred, Bool.and_eq_true] at hpred
    refine ⟨p, hmem, ?_, ?_, hq.symm⟩
    · simpa using hpred.1
    · simpa using hpred.2
  · intro p hp hw hc
    rw [promptsToSend]
    refine List.mem_map.mpr
      ⟨p, List.mem_filter.mpr ⟨hp, ?_⟩, rfl⟩
    rw [sendPred, Bool.and_eq_true]
    exact ⟨by simpa using hc, by simpa using hw⟩
  · intro t ht p _ hpt hmem
    rw [promptsToSend] at hmem
    rcases List.mem_map.mp hmem with ⟨q, hq, heq⟩
    rcases List.mem_filter.mp hq with ⟨_, hpred⟩
    rw [sendPred, Bool.and_eq_true] at hpred
    have hqc : fs.contains q.text = false := by simpa using hpred.1
    have htext : wrapPromptText q.text = wrapPromptText p.text := by
      have := congrArg Prompt.text heq
      simpa using this
    have hqt : q.text = p.text := wrapPromptText_inj htext
    rw [hqt, hpt, ht] at hqc
    cases hqc
  · intro es hne t ht
    exact applyFilterEvents_keeps es fs t hne ht
  · simp [applyFilterEvents, applyFilterEvent]

/-- Concrete prompts used to instantiate the filtering theorem. -/
def pDino : Prompt :=
  { promptId := "prompt-0", color := "#FF6384", text := "Singing Dinosaurs",
    weight := 1 }

/-- A concrete prompt whose text the remote service has rejected. -/
def pBad : Prompt :=
  { promptId := "prompt-1", color := "#FFCD56", text := "scary chainsaws",
    weight := 2 }

/-- C5 witness: with the filtered set holding `pBad`'s text, a push over
`[pDino, pBad]` includes the wrapped `pDino` and excludes `pBad` even at
full weight. -/
theorem c5_prompt_filtering_witness :
    { pDino with text := wrapPromptText pDino.text } ∈
        promptsToSend [pDino, pBad] ["scary chainsaws"] ∧
    { pBad with text := wrapPromptText pBad.text } ∉
        promptsToSend [pDino, pBad] ["scary chainsaws"] :=
  ⟨(c5_prompt_filtering [pDino, pBad] ["scary chainsaws"]).2.1 pDino
      (by simp) (by norm_num [pDino]) (by decide),
    (c5_prompt_filtering [pDino, pBad] ["scary chainsaws"]).2.2.1
      "scary chainsaws" (by decide) pBad (by simp) (by decide)⟩

/-- The captured state of the `throttle` closure (src/index.tsx:34-44):
`let lastCall = 0`, in milliseconds from `Date.now()`. -/
structure ThrottleState where
  lastCall : ℤ
deriving DecidableEq, Repr

/-- One invocation of a throttled function at time `now`
(src/index.tsx:36-43): if `now - lastCall >= delay` the wrapped function
is called and `lastCall = now`; otherwise nothing happens — the update is
dropped with no trailing-edge delivery. -/
def throttleStep (st : ThrottleState) (now delay : ℤ) : Bool × ThrottleState :=
  if delay ≤ now - st.lastCall then (true, ⟨now⟩) else (false, st)

/-- C6: two control updates submitted within less than the 250 ms throttle
interval, with the interval elapsed before the first: the first is sent
immediately and resets the clock to its own timestamp, the second causes
no send and leaves the throttle state untouched — so exactly one underlying
send occurs and nothing is queued for later delivery. -/
theorem c6_throttle_leading_edge (lastCall t1 t2 : ℤ)
    (h1 : lastCall + 250 ≤ t1) (h2 : t2 < t1 + 250) :
    (throttleStep ⟨lastCall⟩ t1 250).1 = true ∧
    (throttleStep ⟨lastCall⟩ t1 250).2 = ⟨t1⟩ ∧
    (throttleStep (throttleStep ⟨lastCall⟩ t1 250).2 t2 250).1 = false ∧
    (throttleStep (throttleStep ⟨lastCall⟩ t1 250).2 t2 250).2 =
      (throttleStep ⟨lastCall⟩ t1 250).2 := by
  have ha : (250 : ℤ) ≤ t1 - lastCall := by linarith
  have hb : ¬ ((250 : ℤ) ≤ t2 - t1) := by
    intro h
    linarith
  refine ⟨?_, ?_, ?_, ?_⟩ <;> simp [throttleStep, ha, hb]

/-- C6 witness: updates at 1000 ms and 1100 ms with the interval elapsed
since 0 — one send, the second dropped. -/
theorem c6_throttle_leading_edge_witness :
    (throttleStep ⟨0⟩ 1000 250).1 = true ∧
    (throttleStep ⟨0⟩ 1000 250).2 = ⟨1000⟩ ∧
    (throttleStep (throttleStep ⟨0⟩ 1000 250).2 1100 250).1 = false ∧
    (throttleStep (throttleStep ⟨0⟩ 1000 250).2 1100 250).2 =
      (throttleStep ⟨0⟩ 1000 250).2 :=
  c6_throttle_leading_edge 0 1000 1100 (by decide) (by decide)

/-- Outcome of one throttled control-channel push: the new engine state,
the payload that was handed to the transport (`none` when the guard
returned early), and whether a user notice was shown. -/
structure SendResult where
  state : EngineState
  pushed : Option (List Prompt)
  notice : Bool
deriving DecidableEq, Repr

/-- The body of `setSessionPrompts` (src/index.tsx:1555-1578).
`sendFails` says whether `session.setWeightedPrompts` throws; on failure
the catch block shows a toast and calls `pauseAudio()`. -/
def setSessionPromptsRun (st : EngineState) (sendFails : Bool) : SendResult :=
  if st.hasSession = false ∨ st.connectionError = true then ⟨st, none, false⟩
  else if sendFails then
    ⟨pauseAudio st, some (promptsToSend st.prompts st.filteredPrompts), true⟩
  else ⟨st, some (promptsToSend st.prompts st.filteredPrompts), false⟩

/-- The body of `updateSettings` (src/index.tsx:1799-1814).  `sendFails`
says whether `session.setMusicGenerationConfig` throws; the catch block
only shows a toast — it does not touch `playbackState` or
`nextStartTime`. -/
def updateSettingsRun (st : EngineState) (sendFails : Bool) :
    EngineState × Bool :=
  if st.hasSession = false ∨ st.connectionError = true then (st, false)
  else if sendFails then (st, true)
  else (st, false)

/-- A healthy `playing` state used to exercise the failure paths. -/
def exHealthyPlaying : EngineState :=
  { playbackState := PlaybackState.playing
    nextStartTime := 5
    connectionError := false
    hasSession := true
    filteredPrompts := []
    prompts := [pDino]
    nextPromptId := 1 }

/-- C7 counterexample: a failed generation-config push (`updateSettings`
throwing with a live, healthy session) emits a notice but leaves
PlaybackState `playing` — it does not force `paused` — so the claim that
a failed send on either control channel forces a pause is false on the
config channel. -/
theorem c7_config_failure_no_pause_cex :
    (updateSettingsRun exHealthyPlaying true).2 = true ∧
    (updateSettingsRun exHealthyPlaying true).1.playbackState =
      PlaybackState.playing ∧
    (updateSettingsRun exHealthyPlaying true).1.playbackState ≠
      PlaybackState.paused ∧
    (updateSettingsRun exHealthyPlaying true).1.nextStartTime = 5 := by
  refine ⟨?_, ?_, ?_, ?_⟩ <;>
    simp [updateSettingsRun, exHealthyPlaying]

/-- C7 amended: a failed weighted-prompts push emits a recoverable notice
and forces `paused`, resetting `nextStartTime` to 0 via the pause path; a
failed generation-config push emits a notice only and leaves the engine
state entirely unchanged. -/
theorem c7_send_failure_paths (st : EngineState)
    (hs : st.hasSession = true) (hc : st.connectionError = false) :
    (setSessionPromptsRun st true).state.playbackState =
        PlaybackState.paused ∧
    (setSessionPromptsRun st true).state.nextStartTime = 0 ∧
    (setSessionPromptsRun st true).notice = true ∧
    (updateSettingsRun st true).1 = st ∧
    (updateSettingsRun st true).2 = true := by
  refine ⟨?_, ?_, ?_, ?_, ?_⟩ <;>
    simp [setSessionPromptsRun, updateSettingsRun, pauseAudio, hs, hc]

/-- C7 witness: the amended failure behaviour at the concrete healthy
`playing` state. -/
theorem c7_send_failure_paths_witness :
    (setSessionPromptsRun exHealthyPlaying true).state.playbackState =
        PlaybackState.paused ∧
    (setSessionPromptsRun exHealthyPlaying true).state.nextStartTime = 0 ∧
    (setSessionPromptsRun exHealthyPlaying true).notice = true ∧
    (updateSettingsRun exHealthyPlaying true).1 = exHealthyPlaying ∧
    (updateSettingsRun exHealthyPlaying true).2 = true :=
  c7_send_failure_paths exHealthyPlaying (by decide) (by decide)

/-- The body of `handleAddPrompt` (src/index.tsx:1728-1748) restricted to
the modelled fields.  When 8 or more prompts exist it only shows a toast;
otherwise it appends a fresh weight-0 prompt (text `'New Song Idea!'`,
id `prompt-<nextPromptId>`) and bumps `nextPromptId`.  In neither branch
is `setSessionPrompts` called — the push at src/index.tsx:1746 is
commented out — so the outcome carries no payload. -/
def handleAddPrompt (st : EngineState) (newColor : String) :
    EngineState × Bool :=
  if 8 ≤ st.prompts.length then (st, true)
  else
    ({ st with
        prompts := st.prompts ++
          [{ promptId := "prompt-" ++ toString st.nextPromptId
             color := newColor
             text := "New Song Idea!"
             weight := 0 }]
        nextPromptId := st.nextPromptId + 1 }, false)

/-- C10: an add-prompt intent with 8 or more prompts present is a no-op on
the engine state — the prompt map is untouched, `nextPromptId` is not
consumed, no push occurs — and only the user notice is emitted. -/
theorem c10_add_prompt_cap (st : EngineState) (newColor : String)
    (h : 8 ≤ st.prompts.length) :
    handleAddPrompt st newColor = (st, true) := by
  simp [handleAddPrompt, h]

/-- A concrete state already holding 8 prompts. -/
def exEightPrompts : EngineState :=
  { exHealthyPlaying with
      prompts := (List.range 8).map
        (fun i => { promptId := "prompt-" ++ toString i
                    color := "#FF6384"
                    text := "idea " ++ toString i
                    weight := 1 })
      nextPromptId := 8 }

/-- C10 witness: adding a ninth prompt to a state with 8 prompts changes
nothing and only notifies. -/
theorem c10_add_prompt_cap_witness :
    handleAddPrompt exEightPrompts "#4BC0C0" = (exEightPrompts, true) :=
  c10_add_prompt_cap exEightPrompts "#4BC0C0" (by simp [exEightPrompts])

/-- The environment a connect attempt runs against: whether the
`AudioContext` is available, whether the liveness probe (the empty-config
push of src/index.tsx:1442) succeeds, whether `ai.live.music.connect`
succeeds, and whether `session.play()` succeeds. -/
structure ConnectEnv where
  audioReady : Bool
  probeOk : Bool
  connectOk : Bool
  playOk : Bool
deriving DecidableEq, Repr

/-- Outcome of one `connectToSession()` call: the resulting engine state
plus how many liveness probes were attempted, how many new sessions were
opened, and how many existing sessions were closed during the call. -/
structure ConnectResult where
  state : EngineState
  probes : ℕ
  reconnects : ℕ
  closes : ℕ
deriving DecidableEq, Repr

/-- The close-and-reopen tail of `connectToSession`
(src/index.tsx:1450-1552): best-effort close of any existing session, set
`playbackState = 'loading'`, open a new session; on success clear
`connectionError` and resync prompts and config (modelled as succeeding);
on failure set `connectionError = true` and `playbackState = 'stopped'`
(the stale `this.session` value is left in place). -/
def connectReconnect (st : EngineState) (env : ConnectEnv) (probes : ℕ) :
    ConnectResult :=
  let closes := if st.hasSession then 1 else 0
  if env.connectOk then
    ⟨{ st with playbackState := PlaybackState.loading,
               hasSession := true, connectionError := false },
      probes, 1, closes⟩
  else
    ⟨{ st with playbackState := PlaybackState.stopped,
               connectionError := true },
      probes, 1, closes⟩

/-- `connectToSession()` (src/index.tsx:1432-1553).  Without an audio
context it stops.  With a session believed healthy it attempts one
liveness probe and returns on success; on probe failure, and whenever the
session is absent or flagged, it falls through to close-and-reconnect. -/
def connectToSession (st : EngineState) (env : ConnectEnv) : ConnectResult :=
  if env.audioReady = false then
    ⟨{ st with playbackState := PlaybackState.stopped }, 0, 0, 0⟩
  else if st.hasSession = true ∧ st.connectionError = false then
    if env.probeOk then ⟨st, 1, 0, 0⟩
    else connectReconnect st env 1
  else connectReconnect st env 0

/-- `loadAudio()` (src/index.tsx:1676-1709): with the session healthy it
calls `session.play()` and enters `loading` (or `paused` when the play
call throws); with the session absent or flagged it reconnects first and
enters `loading` only if the reconnect left a healthy session. -/
def loadAudio (st : EngineState) (env : ConnectEnv) : EngineState :=
  if env.audioReady = false then
    { st with playbackState := PlaybackState.paused }
  else if st.hasSession = false ∨ st.connectionError = true then
    let r := connectToSession st env
    if r.state.connectionError = false ∧ r.state.hasSession = true then
      { r.state with playbackState := PlaybackState.loading }
    else r.state
  else if env.playOk then { st with playbackState := PlaybackState.loading }
  else { st with playbackState := PlaybackState.paused }

/-- `handlePlayPause()` (src/index.tsx:1638-1660): toggles playback.
From `paused`/`stopped` with an unhealthy connection it reconnects, gives
up if the reconnect failed (`if (this.connectionError) return`), and
otherwise proceeds to `loadAudio()`. -/
def handlePlayPause (st : EngineState) (env : ConnectEnv) : EngineState :=
  if env.audioReady = false then st
  else if st.playbackState = PlaybackState.playing then pauseAudio st
  else if st.playbackState = PlaybackState.paused ∨
      st.playbackState = PlaybackState.stopped then
    if st.connectionError = true ∨ st.hasSession = false then
      let r := connectToSession st env
      if r.state.connectionError = true then r.state
      else loadAudio r.state env
    else loadAudio st env
  else pauseAudio st

/-- A `paused` state whose connection has been flagged unhealthy. -/
def exPausedUnhealthy : EngineState :=
  { exPaused with connectionError := true }

/-- An environment where everything works. -/
def envAllOk : ConnectEnv :=
  { audioReady := true, probeOk := true, connectOk := true, playOk := true }

/-- An environment where opening a new session fails. -/
def envConnectFails : ConnectEnv :=
  { envAllOk with connectOk := false }

/-- C8 counterexample: a play intent from `paused` with the connection
flagged, where the reconnect fails, leaves PlaybackState `stopped` — not
the `paused` it was in before — so the claim that a failed reconnect
leaves the state unchanged is false. -/
theorem c8_reconnect_failure_stops_cex :
    exPausedUnhealthy.playbackState = PlaybackState.paused ∧
    (handlePlayPause exPausedUnhealthy envConnectFails).playbackState =
      PlaybackState.stopped ∧
    (handlePlayPause exPausedUnhealthy envConnectFails).playbackState ≠
      PlaybackState.paused := by
  refine ⟨rfl, ?_, ?_⟩ <;>
    simp [handlePlayPause, connectToSession, connectReconnect, loadAudio,
      exPausedUnhealthy, exPaused, exLoading, envConnectFails, envAllOk]

/-- C8 amended: a play intent from `paused` or `stopped` with an
unhealthy connection attempts a reconnect; on success PlaybackState
becomes `loading`, and on failure it becomes `stopped` (whatever it was
before). -/
theorem c8_play_intent_reconnect (st : EngineState) (env : ConnectEnv)
    (haud : env.audioReady = true) (hplay : env.playOk = true)
    (hst : st.playbackState = PlaybackState.paused ∨
      st.playbackState = PlaybackState.stopped)
    (hun : st.connectionError = true ∨ st.hasSession = false) :
    (env.connectOk = true →
      (handlePlayPause st env).playbackState = PlaybackState.loading) ∧
    (env.connectOk = false →
      (handlePlayPause st env).playbackState = PlaybackState.stopped) := by
  constructor <;> intro hok <;>
    rcases hst with hst | hst <;>
    rcases hun with hun | hun <;>
    simp [handlePlayPause, connectToSession, connectReconnect, loadAudio,
      haud, hplay, hst, hun, hok]

/-- C8 witness: from the concrete unhealthy `paused` state, a successful
reconnect enters `loading` and a failed one ends `stopped`. -/
theorem c8_play_intent_reconnect_witness :
    ((true : Bool) = true →
      (handlePlayPause exPausedUnhealthy envAllOk).playbackState =
        PlaybackState.loading) ∧
    ((true : Bool) = false →
      (handlePlayPause exPausedUnhealthy envAllOk).playbackState =
        PlaybackState.stopped) :=
  c8_play_intent_reconnect exPausedUnhealthy envAllOk rfl rfl
    (Or.inl rfl) (Or.inl rfl)

/-- C9 counterexample: with a healthy session and a succeeding probe, two
immediate `connectToSession()` calls perform one probe each — two in
total, not one — while indeed closing nothing, opening nothing, and
leaving the state untouched.  The claimed single probe across both calls
is false. -/
theorem c9_double_connect_two_probes_cex :
    (connectToSession exHealthyPlaying envAllOk).probes +
        (connectToSession (connectToSession exHealthyPlaying envAllOk).state
          envAllOk).probes = 2 ∧
    ¬ ((connectToSession exHealthyPlaying envAllOk).probes +
        (connectToSession (connectToSession exHealthyPlaying envAllOk).state
          envAllOk).probes = 1) ∧
    (connectToSession exHealthyPlaying envAllOk).reconnects +
        (connectToSession (connectToSession exHealthyPlaying envAllOk).state
          envAllOk).reconnects = 0 ∧
    (connectToSession exHealthyPlaying envAllOk).state = exHealthyPlaying := by
  refine ⟨?_, ?_, ?_, ?_⟩ <;>
    simp [connectToSession, connectReconnect, envAllOk, exHealthyPlaying]

/-- C9 amended: with a healthy session and a succeeding probe, each
`connectToSession()` call performs exactly one liveness probe, zero
reconnects and zero closes, and returns the state unchanged — so two
immediate calls perform two probes in total and zero reconnects. -/
theorem c9_connect_idempotent (st : EngineState) (env : ConnectEnv)
    (haud : env.audioReady = true) (hs : st.hasSession = true)
    (hc : st.connectionError = false) (hp : env.probeOk = true) :
    connectToSession st env = ⟨st, 1, 0, 0⟩ ∧
    connectToSession (connectToSession st env).state env = ⟨st, 1, 0, 0⟩ := by
  have h1 : connectToSession st env = ⟨st, 1, 0, 0⟩ := by
    simp [connectToSession, haud, hs, hc, hp]
  exact ⟨h1, by rw [h1]; exact h1⟩

/-- C9 witness: the per-call idempotence at the concrete healthy state. -/
theorem c9_connect_idempotent_witness :
    connectToSession exHealthyPlaying envAllOk =
        ⟨exHealthyPlaying, 1, 0, 0⟩ ∧
    connectToSession (connectToSession exHealthyPlaying envAllOk).state
        envAllOk = ⟨exHealthyPlaying, 1, 0, 0⟩ :=
  c9_connect_idempotent exHealthyPlaying envAllOk rfl rfl rfl rfl

end KidMusic
